import Mathlib

/-!
Verification of the alfred review-assistant core against its specification.

The definitions below are a shallow embedding of the Python modules
`cost_tracker.py`, `review_history.py` and `api_balance_tracker.py`:
pure functions become Lean functions, the JSON files on disk become an
explicit `FileState`, floating-point dollar amounts become rationals,
and `datetime.now()` results are passed in as explicit string arguments.
-/

namespace Alfred

/-- Python list slice `l[-n:]` for a non-negative `n`:
for `n = 0` this is the whole list (`l[-0:] = l[0:]`),
otherwise the last `min n (length l)` elements. -/
def pySliceLast (n : Nat) (l : List α) : List α :=
  if n = 0 then l else l.drop (l.length - n)

/-- State of a JSON file on disk: missing, unreadable/unparseable, or
holding parsed data. -/
inductive FileState (α : Type) where
  | absent
  | corrupt
  | good (data : α)

/-- Python `int(q)` on a rational: truncation toward zero. -/
def pyInt (q : ℚ) : Int := Int.tdiv q.num (q.den : Int)

/-! ## cost_tracker.py -/

/-- `CostTracker.INPUT_COST_PER_M`: $3 per 1M input tokens. -/
def INPUT_COST_PER_M : ℚ := 3

/-- `CostTracker.OUTPUT_COST_PER_M`: $15 per 1M output tokens. -/
def OUTPUT_COST_PER_M : ℚ := 15

/-- One entry of `cost_history.json` as written by `track_review`. -/
structure CostRecord where
  timestamp : String
  filepath : Option String
  input_tokens : Nat
  output_tokens : Nat
  total_tokens : Nat
  cost : ℚ
deriving DecidableEq

/-- The cost formula of `CostTracker.track_review`. -/
def reviewCost (input_tokens output_tokens : Nat) : ℚ :=
  ((input_tokens : ℚ) / 1000000) * INPUT_COST_PER_M
    + ((output_tokens : ℚ) / 1000000) * OUTPUT_COST_PER_M

/-- The history record built inside `CostTracker.track_review`. -/
def costRecordOf (input_tokens output_tokens : Nat) (filepath : Option String)
    (now : String) : CostRecord :=
  { timestamp := now
    filepath := filepath
    input_tokens := input_tokens
    output_tokens := output_tokens
    total_tokens := input_tokens + output_tokens
    cost := ((input_tokens : ℚ) / 1000000) * INPUT_COST_PER_M
              + ((output_tokens : ℚ) / 1000000) * OUTPUT_COST_PER_M }

/-- `CostTracker._save_to_history`: append, then keep only the last 1000
records. -/
def saveToHistory (history : List CostRecord) (r : CostRecord) : List CostRecord :=
  let h := history ++ [r]
  if h.length > 1000 then pySliceLast 1000 h else h

/-- The dict returned by `CostTracker.track_review`. -/
structure CostBreakdown where
  input_tokens : Nat
  output_tokens : Nat
  total_tokens : Nat
  cost : ℚ
  input_cost : ℚ
  output_cost : ℚ
deriving DecidableEq

/-- `CostTracker.track_review`: price a review and append it to the
ledger (returned as the second component). -/
def trackReview (history : List CostRecord) (input_tokens output_tokens : Nat)
    (filepath : Option String) (now : String) : CostBreakdown × List CostRecord :=
  let input_cost := ((input_tokens : ℚ) / 1000000) * INPUT_COST_PER_M
  let output_cost := ((output_tokens : ℚ) / 1000000) * OUTPUT_COST_PER_M
  let total_cost := input_cost + output_cost
  ({ input_tokens := input_tokens
     output_tokens := output_tokens
     total_tokens := input_tokens + output_tokens
     cost := total_cost
     input_cost := input_cost
     output_cost := output_cost },
   saveToHistory history (costRecordOf input_tokens output_tokens filepath now))

/-- `CostTracker._load_history`: a missing file and an unreadable or
unparseable file both yield the empty ledger. -/
def loadCostHistory : FileState (List CostRecord) → List CostRecord
  | .absent => []
  | .corrupt => []
  | .good data => data

/-- The dict returned by `CostTracker.get_total_usage`; the average
fields are missing (`none`) when the ledger file does not exist. -/
structure TotalUsage where
  total_reviews : Nat
  total_tokens : Nat
  total_cost : ℚ
  avg_cost_per_review : Option ℚ
  avg_tokens_per_review : Option ℚ
deriving DecidableEq

/-- `CostTracker.get_total_usage`. -/
def getTotalUsage (fs : FileState (List CostRecord)) : TotalUsage :=
  match fs with
  | .absent =>
    { total_reviews := 0
      total_tokens := 0
      total_cost := 0
      avg_cost_per_review := none
      avg_tokens_per_review := none }
  | fs =>
    let history := loadCostHistory fs
    let total_reviews := history.length
    let total_tokens := (history.map (fun r => r.total_tokens)).sum
    let total_cost := (history.map (fun r => r.cost)).sum
    { total_reviews := total_reviews
      total_tokens := total_tokens
      total_cost := total_cost
      avg_cost_per_review :=
        some (if total_reviews > 0 then total_cost / (total_reviews : ℚ) else 0)
      avg_tokens_per_review :=
        some (if total_reviews > 0 then (total_tokens : ℚ) / (total_reviews : ℚ) else 0) }

/-- `CostTracker.get_recent_reviews`. -/
def getRecentReviews (fs : FileState (List CostRecord)) (limit : Nat) : List CostRecord :=
  match fs with
  | .absent => []
  | fs => pySliceLast limit (loadCostHistory fs)

/-! ## review_history.py: score extraction

`ReviewHistory._extract_score` runs `re.search` with `re.IGNORECASE` for
the four patterns `Overall Score:\s*(\d+)/10`, `Score:\s*(\d+)/10`,
`Rating:\s*(\d+)/10` and `(\d+)/10`, in that order, returning the first
captured number.  The regex engine is embedded below for exactly this
family of patterns: a case-insensitive literal, optional whitespace
(absent for the bare pattern), a non-empty maximal digit run, then the
literal `/10`.  Since a digit run is always maximal in front of the
non-digit `/`, greedy matching needs no backtracking, and `re.search`
returns the match at the leftmost feasible start position. -/

/-- Python `\s` (ASCII range, as in the texts at hand). -/
def isPySpace (c : Char) : Bool :=
  c = ' ' || c = '\t' || c = '\n' || c = '\r' || c = '\x0b' || c = '\x0c'

/-- Case-insensitive literal match; returns the rest of the text. -/
def litMatch : List Char → List Char → Option (List Char)
  | [], t => some t
  | _ :: _, [] => none
  | c :: cs, d :: ds => if c.toLower = d.toLower then litMatch cs ds else none

/-- Numeric value of a digit run (decimal). -/
def digitsVal (ds : List Char) : Nat :=
  ds.foldl (fun a c => a * 10 + (c.toNat - 48)) 0

/-- Try the pattern `lit` + (`\s*` when `ws`) + `(\d+)` + `/10` at the
current position, returning the captured number. -/
def matchAt (lit : List Char) (ws : Bool) (t : List Char) : Option Nat :=
  match litMatch lit t with
  | none => none
  | some r1 =>
    let r2 := if ws then r1.dropWhile isPySpace else r1
    let ds := r2.takeWhile Char.isDigit
    if ds.isEmpty then none
    else
      match r2.dropWhile Char.isDigit with
      | '/' :: '1' :: '0' :: _ => some (digitsVal ds)
      | _ => none

/-- `re.search` for one pattern: first start position (left to right)
where the pattern matches. -/
def searchPat (lit : List Char) (ws : Bool) : List Char → Option Nat
  | [] => matchAt lit ws []
  | c :: rest =>
    match matchAt lit ws (c :: rest) with
    | some n => some n
    | none => searchPat lit ws rest

/-- The four patterns of `_extract_score`, in priority order: the
case-insensitive literal prefix and whether `\s*` separates it from the
digits (the bare `(\d+)/10` pattern has no prefix and no `\s*`). -/
def scorePatterns : List (List Char × Bool) :=
  [("overall score:".data, true),
   ("score:".data, true),
   ("rating:".data, true),
   ([], false)]

/-- The `for pattern in patterns` loop of `_extract_score`. -/
def tryPatterns : List (List Char × Bool) → List Char → Option Nat
  | [], _ => none
  | (lit, ws) :: ps, t =>
    match searchPat lit ws t with
    | some n => some n
    | none => tryPatterns ps t

/-- `ReviewHistory._extract_score`. -/
def extractScore (review_text : String) : Option Int :=
  (tryPatterns scorePatterns review_text.data).map Int.ofNat

/-! ## review_history.py: records and operations -/

/-- `pathlib.Path(p).name`: the final path component. -/
def pathName (p : String) : String :=
  (p.splitOn "/").getLastD ""

/-- One entry of `review_history.json` as written by `save_review`. -/
structure ReviewRecord where
  id : Nat
  filepath : String
  filename : String
  review : String
  focus : String
  score : Option Int
  cost : Option ℚ
  timestamp : String
  date : String
deriving DecidableEq

/-- The `review_data` dict built inside `ReviewHistory.save_review`:
when no score is supplied it is auto-extracted from the review text. -/
def newReviewRecord (review_id : Nat) (filepath review_text focus : String)
    (score : Option Int) (cost : Option ℚ) (ts date : String) : ReviewRecord :=
  { id := review_id
    filepath := filepath
    filename := pathName filepath
    review := review_text
    focus := focus
    score := match score with
             | some s => some s
             | none => extractScore review_text
    cost := cost
    timestamp := ts
    date := date }

/-- `ReviewHistory.save_review`: assign `id = len(history) + 1`, append,
keep only the last `max_reviews = 100` records, return the id and the
new history. -/
def saveReview (history : List ReviewRecord) (filepath review_text focus : String)
    (score : Option Int) (cost : Option ℚ) (ts date : String) :
    Nat × List ReviewRecord :=
  let review_id := history.length + 1
  let r := newReviewRecord review_id filepath review_text focus score cost ts date
  let h := history ++ [r]
  (review_id, if h.length > 100 then pySliceLast 100 h else h)

/-- `ReviewHistory.get_review`: first record with the given id. -/
def getReview (history : List ReviewRecord) (review_id : Nat) : Option ReviewRecord :=
  history.find? (fun r => r.id == review_id)

/-- `ReviewHistory.get_recent`: `history[-limit:][::-1]`. -/
def getRecent (history : List ReviewRecord) (limit : Nat) : List ReviewRecord :=
  (pySliceLast limit history).reverse

/-- `ReviewHistory.delete_review`: remove the first record with the
given id; the flag reports whether one was found. -/
def deleteReview (history : List ReviewRecord) (review_id : Nat) :
    Bool × List ReviewRecord :=
  if history.any (fun r => r.id == review_id)
  then (true, history.eraseP (fun r => r.id == review_id))
  else (false, history)

/-- Python truthiness of the stored `score`: `None` and `0` are falsy. -/
def truthyScore : Option Int → Bool
  | none => false
  | some s => !(s == 0)

/-- Python truthiness of the stored `cost`: `None` and `0.0` are falsy. -/
def truthyCost : Option ℚ → Bool
  | none => false
  | some c => !(c == 0)

/-- `[r['score'] for r in history if r['score']]`. -/
def truthyScores (history : List ReviewRecord) : List Int :=
  (history.filter (fun r => truthyScore r.score)).map (fun r => r.score.getD 0)

/-- `[r['cost'] for r in history if r['cost']]`. -/
def truthyCosts (history : List ReviewRecord) : List ℚ :=
  (history.filter (fun r => truthyCost r.cost)).map (fun r => r.cost.getD 0)

/-- Python dict `breakdown[focus] = breakdown.get(focus, 0) + 1`,
keeping first-insertion order. -/
def bumpFocus : List (String × Nat) → String → List (String × Nat)
  | [], focus => [(focus, 1)]
  | (k, v) :: rest, focus =>
    if k = focus then (k, v + 1) :: rest else (k, v) :: bumpFocus rest focus

/-- `ReviewHistory._get_focus_breakdown`. -/
def focusBreakdown (history : List ReviewRecord) : List (String × Nat) :=
  history.foldl (fun b r => bumpFocus b r.focus) []

/-- The dict returned by `ReviewHistory.get_stats`; `focus_breakdown`
is missing (`none`) for an empty history. -/
structure Stats where
  total_reviews : Nat
  avg_score : ℚ
  total_cost : ℚ
  files_reviewed : Nat
  focus_breakdown : Option (List (String × Nat))
deriving DecidableEq

/-- `ReviewHistory.get_stats`. -/
def getStats (history : List ReviewRecord) : Stats :=
  if history.isEmpty then
    { total_reviews := 0
      avg_score := 0
      total_cost := 0
      files_reviewed := 0
      focus_breakdown := none }
  else
    let scores := truthyScores history
    let costs := truthyCosts history
    let files := (history.map (fun r => r.filename)).dedup
    { total_reviews := history.length
      avg_score := if scores.isEmpty then 0
                   else (scores.map (fun s => (s : ℚ))).sum / (scores.length : ℚ)
      total_cost := if costs.isEmpty then 0 else costs.sum
      files_reviewed := files.length
      focus_breakdown := some (focusBreakdown history) }

/-- `ReviewHistory._load_history`: a missing file and an unreadable or
unparseable file both yield the empty history. -/
def loadReviewHistory : FileState (List ReviewRecord) → List ReviewRecord
  | .absent => []
  | .corrupt => []
  | .good data => data

/-! ## api_balance_tracker.py -/

/-- The content of `api_balance.json` as written by `save_balance`. -/
structure BalanceData where
  balance : ℚ
  last_updated : String
  total_cost_at_update : ℚ
deriving DecidableEq

/-- `APIBalanceTracker.save_balance`: snapshot the user-reported balance
together with the ledger's cumulative cost at save time. -/
def saveBalance (lfs : FileState (List CostRecord)) (balance : ℚ)
    (now : String) : BalanceData :=
  { balance := balance
    last_updated := now
    total_cost_at_update := (getTotalUsage lfs).total_cost }

/-- The dict returned by `APIBalanceTracker.load_balance`. -/
structure LoadedBalance where
  balance : ℚ
  last_updated : String
  spent_since_update : ℚ
  is_estimate : Bool
deriving DecidableEq

/-- `APIBalanceTracker.load_balance`: `None` when the snapshot file is
missing or unreadable (bare `except`); otherwise the saved balance minus
the ledger spending since the snapshot, floored at zero. -/
def loadBalance (bfs : FileState BalanceData)
    (lfs : FileState (List CostRecord)) : Option LoadedBalance :=
  match bfs with
  | .absent => none
  | .corrupt => none
  | .good data =>
    let current_total_cost := (getTotalUsage lfs).total_cost
    let spent_since_save := current_total_cost - data.total_cost_at_update
    some { balance := max 0 (data.balance - spent_since_save)
           last_updated := data.last_updated
           spent_since_update := spent_since_save
           is_estimate := spent_since_save > 0 }

/-- `APIBalanceTracker._get_current_month_cost`. -/
def getCurrentMonthCost (lfs : FileState (List CostRecord))
    (current_month : String) : ℚ :=
  (((loadCostHistory lfs).filter
      (fun r => r.timestamp.startsWith current_month)).map (fun r => r.cost)).sum

/-- The `status` string computed by `get_usage_status`. -/
inductive BalanceStatus where
  | low
  | warning
  | ok
deriving DecidableEq

/-- The `if remaining < 1 / elif remaining < 5 / else` chain of
`get_usage_status`. -/
def statusOf (remaining : ℚ) : BalanceStatus :=
  if remaining < 1 then .low else if remaining < 5 then .warning else .ok

/-- The dict returned by `APIBalanceTracker.get_usage_status`; it has a
different shape with and without a user balance (`has_balance`). -/
inductive UsageStatus where
  | noBalance (month_cost total_cost : ℚ)
  | withBalance (status : BalanceStatus) (balance month_cost total_cost : ℚ)
      (estimated_reviews_left : Int) (avg_cost_per_review : ℚ) (should_warn : Bool)
deriving DecidableEq

/-- `APIBalanceTracker.get_usage_status`. -/
def getUsageStatus (lfs : FileState (List CostRecord)) (current_month : String)
    (user_balance : Option ℚ) : UsageStatus :=
  let month_cost := getCurrentMonthCost lfs current_month
  let total_cost := (getTotalUsage lfs).total_cost
  match user_balance with
  | none => .noBalance month_cost total_cost
  | some remaining =>
    let avg_cost_per_review := ((getTotalUsage lfs).avg_cost_per_review).getD 0.15
    let estimated_reviews_left :=
      if 0 < avg_cost_per_review then pyInt (remaining / avg_cost_per_review) else 0
    let status := statusOf remaining
    .withBalance status remaining month_cost total_cost estimated_reviews_left
      avg_cost_per_review (status == .low || status == .warning)

/-- The warning messages `check_before_review` can return, with the
dollar amounts they name. -/
inductive GateWarning where
  | insufficient (balance estimated_cost : ℚ)
  | advisory (status : BalanceStatus) (balance estimated_cost : ℚ)
deriving DecidableEq

/-- `APIBalanceTracker.check_before_review` (via `get_detailed_status`):
the `(should_proceed, warning_message)` gate. -/
def checkBeforeReview (bfs : FileState BalanceData)
    (lfs : FileState (List CostRecord)) (current_month : String)
    (estimated_cost : ℚ) : Bool × Option GateWarning :=
  match loadBalance bfs lfs with
  | none => (true, none)
  | some bd =>
    match getUsageStatus lfs current_month (some bd.balance) with
    | .noBalance _ _ => (true, none)
    | .withBalance status balance _ _ _ _ _ =>
      if balance < estimated_cost then
        (false, some (.insufficient balance estimated_cost))
      else if status == .low || status == .warning then
        (true, some (.advisory status balance estimated_cost))
      else
        (true, none)

/-! ## Theorems -/

/-- C3: score extraction scans the four patterns in fixed priority
order (`Overall Score: N/10`, then `Score: N/10`, then `Rating: N/10`,
then bare `N/10`), case-insensitively, returning the number from the
first pattern that matches anywhere in the text; with no match the
score is absent; a text with both `Score: 4/10` and a later bare
`9/10` yields 4. -/
theorem extract_score_priority_order :
    (∀ s : String,
      extractScore s =
        match searchPat "overall score:".data true s.data with
        | some n => some (Int.ofNat n)
        | none =>
          match searchPat "score:".data true s.data with
          | some n => some (Int.ofNat n)
          | none =>
            match searchPat "rating:".data true s.data with
            | some n => some (Int.ofNat n)
            | none => (searchPat [] false s.data).map Int.ofNat)
    ∧ extractScore "Score: 4/10 and then 9/10" = some 4
    ∧ extractScore "no score pattern here" = none := by
  refine ⟨?_, rfl, rfl⟩
  intro s
  rcases h1 : searchPat "overall score:".data true s.data with _ | n1 <;>
    rcases h2 : searchPat "score:".data true s.data with _ | n2 <;>
      rcases h3 : searchPat "rating:".data true s.data with _ | n3 <;>
        rcases h4 : searchPat [] false s.data with _ | n4 <;>
          simp [extractScore, scorePatterns, tryPatterns, h1, h2, h3, h4]

/-- C8: the cost recorded for a review with given non-negative token
counts equals `input/1e6 * 3 + output/1e6 * 15` (the configured
per-million-token rates), both in the returned breakdown and in the
ledger record, and this cost is non-negative. -/
theorem track_review_cost_formula :
    ∀ (history : List CostRecord) (input_tokens output_tokens : Nat)
      (filepath : Option String) (now : String),
      (trackReview history input_tokens output_tokens filepath now).1.cost
          = (input_tokens : ℚ) / 1000000 * 3 + (output_tokens : ℚ) / 1000000 * 15
      ∧ (costRecordOf input_tokens output_tokens filepath now).cost
          = (input_tokens : ℚ) / 1000000 * 3 + (output_tokens : ℚ) / 1000000 * 15
      ∧ (trackReview history input_tokens output_tokens filepath now).2
          = saveToHistory history (costRecordOf input_tokens output_tokens filepath now)
      ∧ 0 ≤ (trackReview history input_tokens output_tokens filepath now).1.cost := by
  intro h i o fp now
  refine ⟨rfl, rfl, rfl, ?_⟩
  show 0 ≤ (i : ℚ) / 1000000 * INPUT_COST_PER_M + (o : ℚ) / 1000000 * OUTPUT_COST_PER_M
  unfold INPUT_COST_PER_M OUTPUT_COST_PER_M
  positivity

/-- C9: a corrupt/unreadable ledger or history file is loaded as the
empty sequence, and the aggregate queries over it (total reviews,
total tokens, total cost; review stats) report zero, as for a fresh
state. -/
theorem corrupt_files_treated_as_empty :
    loadCostHistory FileState.corrupt = []
    ∧ (getTotalUsage FileState.corrupt).total_reviews = 0
    ∧ (getTotalUsage FileState.corrupt).total_tokens = 0
    ∧ (getTotalUsage FileState.corrupt).total_cost = 0
    ∧ loadReviewHistory FileState.corrupt = []
    ∧ getStats (loadReviewHistory FileState.corrupt) = getStats [] :=
  ⟨rfl, rfl, rfl, rfl, rfl, rfl⟩

/-- C10: the recent-slice queries with `limit = 0` return the entire
stored sequence (newest-first for `get_recent`), because the Python
slice `history[-0:]` is the whole list; for `limit ≥ 1` the result has
at most `limit` records. -/
theorem recent_slice_zero_limit :
    ∀ (history : List ReviewRecord) (lfs : FileState (List CostRecord)) (n : Nat),
      getRecent history 0 = history.reverse
      ∧ getRecentReviews lfs 0 = loadCostHistory lfs
      ∧ (1 ≤ n →
          (getRecent history n).length ≤ n
          ∧ (getRecentReviews lfs n).length ≤ n) := by
  intro h lfs n
  refine ⟨by simp [getRecent, pySliceLast], ?_, ?_⟩
  · cases lfs <;> simp [getRecentReviews, pySliceLast, loadCostHistory]
  · intro hn
    constructor
    · simp only [getRecent, pySliceLast, List.length_reverse]
      rw [if_neg (by omega)]
      rw [List.length_drop]
      omega
    · cases lfs <;>
        simp only [getRecentReviews, pySliceLast, loadCostHistory] <;>
        first
          | simp
          | (rw [if_neg (by omega)]; rw [List.length_drop]; omega)

/-- Witness for C10 at `limit = 1`. -/
theorem recent_slice_zero_limit_witness :
    (getRecent [newReviewRecord 1 "a" "t" "general" (some 5) none "ts" "d"] 1).length ≤ 1
    ∧ (getRecentReviews (FileState.good []) 1).length ≤ 1 :=
  (recent_slice_zero_limit [newReviewRecord 1 "a" "t" "general" (some 5) none "ts" "d"]
    (FileState.good []) 1).2.2 (by omega)

/-- C5: after every `save_review` the stored sequence has length
`min (previous length + 1) 100`, and saving into a history of 100
records drops exactly the oldest record, keeping the 100 newer ones
including the new record. -/
theorem history_capped_at_100 :
    ∀ (history : List ReviewRecord) (fp txt focus : String) (sc : Option Int)
      (cost : Option ℚ) (ts d : String),
      (saveReview history fp txt focus sc cost ts d).2.length
          = min (history.length + 1) 100
      ∧ (history.length = 100 →
          (saveReview history fp txt focus sc cost ts d).2
            = history.tail
                ++ [newReviewRecord (history.length + 1) fp txt focus sc cost ts d]) := by
  intro h fp txt focus sc cost ts d
  constructor
  · simp only [saveReview]
    split_ifs with hlen
    · simp only [pySliceLast]
      rw [if_neg (by omega)]
      rw [List.length_drop]
      simp only [List.length_append, List.length_cons, List.length_nil] at hlen ⊢
      omega
    · simp only [List.length_append, List.length_cons, List.length_nil] at hlen ⊢
      omega
  · intro h100
    simp only [saveReview]
    rw [if_pos (by simp [h100])]
    simp only [pySliceLast]
    rw [if_neg (by omega)]
    have hlen : (h ++ [newReviewRecord (h.length + 1) fp txt focus sc cost ts d]).length
        = 101 := by simp [h100]
    rw [hlen]
    norm_num
    rcases h with _ | ⟨a, h⟩
    · simp at h100
    · simp

/-- Witness for C5: saving into a history of exactly 100 records. -/
theorem history_capped_at_100_witness :
    ((saveReview (List.replicate 100 (newReviewRecord 1 "a" "t" "general" (some 5) none "ts" "d"))
        "b" "t2" "general" (some 6) none "ts2" "d2").2.length = 100)
    ∧ ((saveReview (List.replicate 100 (newReviewRecord 1 "a" "t" "general" (some 5) none "ts" "d"))
        "b" "t2" "general" (some 6) none "ts2" "d2").2
      = (List.replicate 100 (newReviewRecord 1 "a" "t" "general" (some 5) none "ts" "d")).tail
          ++ [newReviewRecord 101 "b" "t2" "general" (some 6) none "ts2" "d2"]) := by
  have h1 := (history_capped_at_100
    (List.replicate 100 (newReviewRecord 1 "a" "t" "general" (some 5) none "ts" "d"))
    "b" "t2" "general" (some 6) none "ts2" "d2").1
  have h2 := (history_capped_at_100
    (List.replicate 100 (newReviewRecord 1 "a" "t" "general" (some 5) none "ts" "d"))
    "b" "t2" "general" (some 6) none "ts2" "d2").2 (by simp)
  constructor
  · simpa using h1
  · simpa using h2

/-- The gate decision exactly as the specification words it: no
snapshot → proceed with no warning; estimated balance below the cost →
block with a message naming the shortfall; balance at least the cost
but under $5 (status `low` under $1, `warning` under $5) → proceed with
an advisory; otherwise proceed silently. -/
def gateSpec (b? : Option ℚ) (c : ℚ) : Bool × Option GateWarning :=
  match b? with
  | none => (true, none)
  | some b =>
    if b < c then (false, some (.insufficient b c))
    else if b < 1 then (true, some (.advisory .low b c))
    else if b < 5 then (true, some (.advisory .warning b c))
    else (true, none)

/-- C1: `check_before_review` implements the specified gate on the
estimated balance: with no snapshot it proceeds without warning; with
estimated balance `b < cost` it blocks with a message naming the
shortfall; with `b ≥ cost` and `b < 1` (status `low`) or `1 ≤ b < 5`
(status `warning`) it proceeds with an advisory; with `b ≥ cost` and
`b ≥ 5` (status `ok`) it proceeds without warning. -/
theorem check_before_review_gate :
    ∀ (bfs : FileState BalanceData) (lfs : FileState (List CostRecord))
      (current_month : String) (c : ℚ),
      checkBeforeReview bfs lfs current_month c
        = gateSpec ((loadBalance bfs lfs).map (fun r => r.balance)) c := by
  intro bfs lfs m c
  cases bfs with
  | absent => rfl
  | corrupt => rfl
  | good data =>
    simp only [checkBeforeReview, loadBalance, getUsageStatus, gateSpec, Option.map,
      statusOf]
    split_ifs <;> simp_all

/-- Recording a sequence of reviews through `track_review`, threading
the ledger. Each element of `usages` is
`(input_tokens, output_tokens, filepath, timestamp)`. -/
def recordAll (l0 : List CostRecord)
    (usages : List (Nat × Nat × Option String × String)) : List CostRecord :=
  usages.foldl (fun l u => (trackReview l u.1 u.2.1 u.2.2.1 u.2.2.2).2) l0

lemma saveToHistory_of_le (l : List CostRecord) (r : CostRecord)
    (h : l.length + 1 ≤ 1000) : saveToHistory l r = l ++ [r] := by
  simp only [saveToHistory]
  rw [if_neg]
  simp only [List.length_append, List.length_cons, List.length_nil]
  omega

lemma recordAll_append :
    ∀ (usages : List (Nat × Nat × Option String × String)) (l0 : List CostRecord),
      l0.length + usages.length ≤ 1000 →
      recordAll l0 usages
        = l0 ++ usages.map (fun u => costRecordOf u.1 u.2.1 u.2.2.1 u.2.2.2) := by
  intro usages
  induction usages with
  | nil => intro l0 _; simp [recordAll]
  | cons u us ih =>
    intro l0 hlen
    have step : (trackReview l0 u.1 u.2.1 u.2.2.1 u.2.2.2).2
        = l0 ++ [costRecordOf u.1 u.2.1 u.2.2.1 u.2.2.2] := by
      show saveToHistory l0 (costRecordOf u.1 u.2.1 u.2.2.1 u.2.2.2)
          = l0 ++ [costRecordOf u.1 u.2.1 u.2.2.1 u.2.2.2]
      exact saveToHistory_of_le _ _ (by simp at hlen; omega)
    have tailEq : recordAll l0 (u :: us)
        = recordAll (l0 ++ [costRecordOf u.1 u.2.1 u.2.2.1 u.2.2.2]) us := by
      simp only [recordAll, List.foldl_cons]
      rw [step]
    rw [tailEq, ih]
    · simp
    · simp at hlen ⊢
      omega

/-- Counterexample to C2 as stated: a snapshot with reported balance
`-1` and no spending since the snapshot; the claim says the estimate
is exactly the reported balance, but the code floors at zero. -/
theorem balance_estimate_cex :
    (loadBalance (FileState.good ⟨-1, "t0", 0⟩) FileState.absent).map
        (fun r => r.balance) = some 0
    ∧ some (0 : ℚ) ≠ some (-1 : ℚ) := by
  constructor
  · simp only [loadBalance, getTotalUsage, Option.map]
    norm_num
  · intro h
    rw [Option.some_inj] at h
    norm_num at h

/-- C2 (amended): the estimated balance returned by `load_balance`
equals `max 0 (B - (T - T0))` for snapshot balance `B`, snapshot ledger
total `T0` and current ledger total `T`; immediately after a snapshot
with no further spending it returns `max 0 B`, which is exactly `B`
when `B ≥ 0`; and after recording further reviews of total cost `C`
while the ledger stays within its 1000-record cap, it returns
`max 0 (B - C)`. -/
theorem balance_estimate_amended :
    ∀ (B T0 : ℚ) (lu : String) (lfs : FileState (List CostRecord)),
      ((loadBalance (.good ⟨B, lu, T0⟩) lfs).map (fun r => r.balance)
          = some (max 0 (B - ((getTotalUsage lfs).total_cost - T0))))
      ∧ (0 ≤ B → ∀ now : String,
          (loadBalance (.good (saveBalance lfs B now)) lfs).map (fun r => r.balance)
            = some B)
      ∧ (∀ (l0 : List CostRecord) (usages : List (Nat × Nat × Option String × String))
            (now : String),
          l0.length + usages.length ≤ 1000 →
          (loadBalance (.good (saveBalance (.good l0) B now))
              (.good (recordAll l0 usages))).map (fun r => r.balance)
            = some (max 0 (B - (usages.map (fun u => reviewCost u.1 u.2.1)).sum))) := by
  intro B T0 lu lfs
  refine ⟨rfl, ?_, ?_⟩
  · intro hB now
    simp only [loadBalance, saveBalance, Option.map]
    rw [Option.some_inj]
    have h1 : B - ((getTotalUsage lfs).total_cost - (getTotalUsage lfs).total_cost) = B := by
      ring
    rw [h1]
    exact max_eq_right hB
  · intro l0 usages now hlen
    simp only [loadBalance, saveBalance, Option.map]
    rw [Option.some_inj]
    rw [recordAll_append usages l0 hlen]
    simp only [getTotalUsage, loadCostHistory, List.map_append, List.sum_append,
      List.map_map]
    have hcost : ((usages.map (fun u => costRecordOf u.1 u.2.1 u.2.2.1 u.2.2.2)).map
        (fun r => r.cost)).sum = (usages.map (fun u => reviewCost u.1 u.2.1)).sum := by
      rw [List.map_map]
      congr 1
    congr 1
    ring_nf
    rw [← List.map_map, hcost]

/-- Witness for C2 (amended): snapshot of $10 with an empty ledger;
immediately it reads $10, and after one review of 1M input tokens
(cost $3) it reads $7. -/
theorem balance_estimate_amended_witness :
    ((loadBalance (.good (saveBalance .absent 10 "n")) .absent).map
        (fun r => r.balance) = some 10)
    ∧ ((loadBalance (.good (saveBalance (.good []) 10 "n"))
        (.good (recordAll [] [(1000000, 0, none, "t")]))).map
          (fun r => r.balance) = some 7) := by
  constructor
  · exact (balance_estimate_amended 10 0 "x" .absent).2.1 (by norm_num) "n"
  · have h := (balance_estimate_amended 10 0 "x" (.good [])).2.2
      [] [(1000000, 0, none, "t")] "n" (by simp)
    have hc : max 0 ((10 : ℚ)
        - ([((1000000 : Nat), (0 : Nat), (none : Option String), "t")].map
            (fun u => reviewCost u.1 u.2.1)).sum) = 7 := by
      simp [reviewCost, INPUT_COST_PER_M, OUTPUT_COST_PER_M]
      norm_num
    rw [hc] at h
    exact h

lemma find?_append_new (l₁ : List ReviewRecord) (r : ReviewRecord) (k : Nat)
    (hsub : ∀ x ∈ l₁, x.id ≠ k) (hr : r.id = k) :
    (l₁ ++ [r]).find? (fun x => x.id == k) = some r := by
  rw [List.find?_append]
  have h1 : l₁.find? (fun x => x.id == k) = none := by
    rw [List.find?_eq_none]
    intro x hx
    simp [hsub x hx]
  rw [h1]
  simp [List.find?, hr]

/-- History built by: save to "a.py" (id 1), save to "b.py" (id 2),
delete id 1. The next save is assigned id 2 again, colliding with the
surviving record. -/
def collidingHistory : List ReviewRecord :=
  (deleteReview
    (saveReview
      (saveReview [] "a.py" "r1" "general" (some 5) none "t1" "d1").2
      "b.py" "r2" "general" (some 6) none "t2" "d2").2
    1).2

/-- Counterexample to C4 as stated: after a deletion, `save_review`
reuses id 2, and `get_review 2` returns the older record for "b.py",
not the record just saved for "c.py". -/
theorem save_then_get_cex :
    (saveReview collidingHistory "c.py" "r3" "general" (some 7) none "t3" "d3").1 = 2
    ∧ (getReview (saveReview collidingHistory "c.py" "r3" "general" (some 7) none "t3" "d3").2
        (saveReview collidingHistory "c.py" "r3" "general" (some 7) none "t3" "d3").1).map
          (fun r => r.filepath) = some "b.py"
    ∧ ("b.py" : String) ≠ "c.py" := by
  refine ⟨rfl, rfl, by decide⟩

/-- C4 (amended): provided no record already stored carries the id
`length + 1` that `save_review` will assign (guaranteed when the
history was built by appends alone, without deletions), retrieving the
returned id yields exactly the record just saved: the supplied
filepath, review text, focus and cost unchanged, the supplied score
when given, and the auto-extracted score otherwise. -/
theorem save_then_get_amended :
    ∀ (h : List ReviewRecord) (fp txt focus : String) (sc : Option Int)
      (cost : Option ℚ) (ts d : String),
      (∀ r ∈ h, r.id ≠ h.length + 1) →
      getReview (saveReview h fp txt focus sc cost ts d).2
          (saveReview h fp txt focus sc cost ts d).1
        = some (newReviewRecord (h.length + 1) fp txt focus sc cost ts d)
      ∧ (newReviewRecord (h.length + 1) fp txt focus sc cost ts d).filepath = fp
      ∧ (newReviewRecord (h.length + 1) fp txt focus sc cost ts d).review = txt
      ∧ (newReviewRecord (h.length + 1) fp txt focus sc cost ts d).focus = focus
      ∧ (newReviewRecord (h.length + 1) fp txt focus sc cost ts d).cost = cost
      ∧ (∀ s, sc = some s →
          (newReviewRecord (h.length + 1) fp txt focus sc cost ts d).score = some s)
      ∧ (sc = none →
          (newReviewRecord (h.length + 1) fp txt focus sc cost ts d).score
            = extractScore txt) := by
  intro h fp txt focus sc cost ts d huniq
  refine ⟨?_, rfl, rfl, rfl, rfl, ?_, ?_⟩
  · simp only [saveReview, getReview]
    split_ifs with hlen
    · simp only [List.length_append, List.length_cons, List.length_nil] at hlen
      simp only [pySliceLast]
      rw [if_neg (by omega)]
      rw [List.drop_append_of_le_length
        (by simp only [List.length_append, List.length_cons, List.length_nil]; omega)]
      refine find?_append_new _ _ _ ?_ rfl
      intro x hx
      exact huniq x (List.drop_subset _ _ hx)
    · exact find?_append_new _ _ _ huniq rfl
  · intro s hs
    subst hs
    rfl
  · intro hs
    subst hs
    rfl

/-- Witness for C4 (amended): saving into an empty history and reading
the record back by the returned id. -/
theorem save_then_get_amended_witness :
    getReview (saveReview [] "a.py" "hello" "general" (some 3) none "ts" "d").2
        (saveReview [] "a.py" "hello" "general" (some 3) none "ts" "d").1
      = some (newReviewRecord 1 "a.py" "hello" "general" (some 3) none "ts" "d") :=
  (save_then_get_amended [] "a.py" "hello" "general" (some 3) none "ts" "d"
    (by simp)).1

lemma truthyScores_eq_filterMap (history : List ReviewRecord) :
    truthyScores history
      = history.filterMap (fun r =>
          match r.score with
          | some s => if s = 0 then none else some s
          | none => none) := by
  induction history with
  | nil => rfl
  | cons r h ih =>
    rcases hs : r.score with _ | s
    · simp [truthyScores, truthyScore, hs, List.filter_cons, List.filterMap_cons] at ih ⊢
      exact ih
    · by_cases h0 : s = 0
      · subst h0
        simp [truthyScores, truthyScore, hs, List.filter_cons, List.filterMap_cons] at ih ⊢
        exact ih
      · simp [truthyScores, truthyScore, hs, h0, List.filter_cons,
          List.filterMap_cons] at ih ⊢
        exact ih

lemma truthyCosts_sum_eq (history : List ReviewRecord) :
    (truthyCosts history).sum = (history.filterMap (fun r => r.cost)).sum := by
  induction history with
  | nil => rfl
  | cons r h ih =>
    rcases hc : r.cost with _ | c
    · simp [truthyCosts, truthyCost, hc, List.filter_cons, List.filterMap_cons] at ih ⊢
      exact ih
    · by_cases h0 : c = 0
      · subst h0
        simp [truthyCosts, truthyCost, hc, List.filter_cons, List.filterMap_cons] at ih ⊢
        exact ih
      · simp [truthyCosts, truthyCost, hc, h0, List.filter_cons,
          List.filterMap_cons] at ih ⊢
        simp [ih]

/-- The average the claim describes: over exactly the records that have
a score, a score of 0 included. -/
def claimAvgScore (history : List ReviewRecord) : ℚ :=
  let scores : List Int := history.filterMap (fun r => r.score)
  if scores.isEmpty then 0
  else (scores.map (fun s => (s : ℚ))).sum / (scores.length : ℚ)

/-- Two records with scores 0 and 10: the claimed average is 5, the
code's average is 10 because the score 0 is excluded by truthiness. -/
def statsCexHistory : List ReviewRecord :=
  [newReviewRecord 1 "a.py" "zero" "general" (some 0) none "t1" "d1",
   newReviewRecord 2 "b.py" "ten" "general" (some 10) none "t2" "d2"]

/-- Counterexample to C6 as stated: on a history holding scores 0 and
10, `get_stats` reports average 10, not the claimed average 5 over all
records that have a score. -/
theorem stats_avg_cex :
    (getStats statsCexHistory).avg_score = 10
    ∧ claimAvgScore statsCexHistory = 5
    ∧ (10 : ℚ) ≠ 5 := by
  refine ⟨?_, ?_, by norm_num⟩
  · norm_num [getStats, statsCexHistory, truthyScores, truthyScore, newReviewRecord]
  · norm_num [claimAvgScore, statsCexHistory, newReviewRecord, List.filterMap_cons,
      List.filterMap_nil]

/-- `get_stats` exactly as the amended claim words it: count, average
score over the records whose score is present and nonzero (Python
truthiness drops a stored 0), total cost over the records that have a
cost (a stored 0.0 is dropped by truthiness but contributes nothing to
the sum anyway), distinct filename count, and the per-focus histogram;
an empty history reports zeros and no histogram. -/
def specStats (history : List ReviewRecord) : Stats :=
  if history.isEmpty then
    { total_reviews := 0
      avg_score := 0
      total_cost := 0
      files_reviewed := 0
      focus_breakdown := none }
  else
    let scores : List Int := history.filterMap (fun r =>
      match r.score with
      | some s => if s = 0 then none else some s
      | none => none)
    { total_reviews := history.length
      avg_score := if scores.isEmpty then 0
                   else (scores.map (fun s => (s : ℚ))).sum / (scores.length : ℚ)
      total_cost := (history.filterMap (fun r => r.cost)).sum
      files_reviewed := ((history.map (fun r => r.filename)).dedup).length
      focus_breakdown := some (focusBreakdown history) }

/-- C6 (amended): `get_stats` reports the count, the average score over
records with a present nonzero score, the total over all present costs,
the distinct filename count and the focus histogram (omitted for an
empty history). -/
theorem stats_amended : ∀ history : List ReviewRecord, getStats history = specStats history := by
  intro h
  by_cases hemp : h.isEmpty
  · simp [getStats, specStats, hemp]
  · simp only [getStats, specStats, hemp, if_neg, Bool.false_eq_true, not_false_iff]
    have hcost : (if (truthyCosts h).isEmpty then (0 : ℚ) else (truthyCosts h).sum)
        = (h.filterMap (fun r => r.cost)).sum := by
      split_ifs with he
      · rw [← truthyCosts_sum_eq]
        rw [List.isEmpty_iff] at he
        rw [he]
        rfl
      · exact truthyCosts_sum_eq h
    rw [truthyScores_eq_filterMap, hcost]

/-- Counterexample to C7 as stated: the review text
`Overall Score: 15/10` is pattern-matched to the score 15, which the
code stores without any range check; 15 exceeds 10. -/
theorem score_range_cex :
    ((saveReview [] "f.py" "Overall Score: 15/10" "general" none none "t" "d").2.map
        (fun r => r.score)) = [some 15]
    ∧ ¬ (15 : Int) ≤ 10 :=
  ⟨rfl, by decide⟩

/-- C7 (amended): every auto-extracted score is a non-negative integer
(the digits captured by the pattern), and `save_review` stores the
extracted value without validating it against the 0–10 range; supplied
scores are likewise stored unvalidated. -/
theorem score_extract_nonneg_unbounded :
    (∀ (s : String) (n : Int), extractScore s = some n → 0 ≤ n)
    ∧ (∀ (review_id : Nat) (fp txt focus : String) (cost : Option ℚ) (ts d : String),
        (newReviewRecord review_id fp txt focus none cost ts d).score = extractScore txt)
    ∧ (∀ (review_id : Nat) (fp txt focus : String) (sc : Int) (cost : Option ℚ)
        (ts d : String),
        (newReviewRecord review_id fp txt focus (some sc) cost ts d).score = some sc) := by
  refine ⟨?_, fun _ _ _ _ _ _ _ => rfl, fun _ _ _ _ _ _ _ _ => rfl⟩
  intro s n hn
  simp only [extractScore] at hn
  rcases Option.map_eq_some'.mp hn with ⟨m, _, rfl⟩
  exact Int.ofNat_nonneg m

/-- Witness for C7 (amended) at the text `7/10`. -/
theorem score_extract_nonneg_unbounded_witness :
    extractScore "7/10" = some 7 ∧ (0 : Int) ≤ 7 :=
  ⟨rfl, score_extract_nonneg_unbounded.1 "7/10" 7 rfl⟩

end Alfred
